import Mathlib

/-!
Verification of the Finland mobility-energy-emissions pipeline (2001-2024).

The development shallowly embeds the two core modules of the repository:

* `src/preprocess.py`: three schema extractors (`load_emissions`,
  `load_electricity`, `load_vehicles`) and the year-keyed outer merge of
  their outputs (`mergedTable`, from `main`).
* `src/analysis.py`: the derivation engine (`zscore`, `yoy`, rolling
  correlation, `lagged_corr`) and the regression row selection (`fit_ols`).

Modelling conventions:
* pandas nullable numeric cells (`NaN`) are `Option ℚ`; exact rational
  arithmetic stands in for IEEE doubles.
* a missing input file is an `Option RawTable` argument equal to `none`.
* Python exceptions are an `Except LoadError` result; the constructors
  follow the error taxonomy of the specification (`fileNotFound`,
  `schemaMismatch` for `ValueError` on columns, `noMatchingRows` for the
  vehicles row filter, `keyError` for a raw pandas `KeyError`), each
  carrying the name of the column or pattern that the code's message cites.
* a Pearson correlation value `r = cov / (std x * std y)` is represented
  exactly by `CorrOut`: the numerator `n·Σxy − Σx·Σy` and the two variance
  numerators `n·Σx² − (Σx)²`; the real value is `CorrOut.val`.  pandas
  yields `NaN` (here `none`) exactly when a variance numerator is not
  positive.
-/

namespace MEE

/-! ## Basic utilities -/

/-- Sequence a list of options: `some` of the values when all entries are
`some`, otherwise `none`. -/
def seqOpt : List (Option ℚ) → Option (List ℚ)
  | [] => some []
  | none :: _ => none
  | some a :: rest =>
    match seqOpt rest with
    | some l => some (a :: l)
    | none => none

/-- Nullable subtraction: `none` when either operand is missing
(NaN propagation of `pandas`). -/
def sub? : Option ℚ → Option ℚ → Option ℚ
  | some a, some b => some (a - b)
  | _, _ => none

/-- Element of a nullable column at position `i` (`none` out of range). -/
def at? (s : List (Option ℚ)) (i : ℕ) : Option ℚ :=
  (s.get? i).getD none

/-- Non-null entries of a nullable column, in order (the sample that
`pandas` reductions such as `mean`/`std` operate on). -/
def validVals (s : List (Option ℚ)) : List ℚ :=
  s.filterMap id

/-- Pairwise-complete observations of two aligned nullable columns: the
rows where both entries are non-null, in order. -/
def validPairs (x y : List (Option ℚ)) : List (ℚ × ℚ) :=
  (x.zip y).filterMap
    (fun p =>
      match p with
      | (some a, some b) => some (a, b)
      | _ => none)

/-! ## String machinery of the schema extractors -/

/-- Word character for the `\b` boundary of Python regexes (ASCII
approximation of `\w`). -/
def isWordChar (c : Char) : Bool :=
  c.isAlphanum || c = '_'

/-- Collapse every whitespace run to a single space, tracking whether the
previous emitted character was whitespace (embeds
`re.sub(r"\s+", " ", c)`). -/
def collapseWSAux : Bool → List Char → List Char
  | _, [] => []
  | prevWS, c :: cs =>
    if c.isWhitespace then
      if prevWS then collapseWSAux true cs
      else ' ' :: collapseWSAux true cs
    else c :: collapseWSAux false cs

/-- Strip leading and trailing whitespace (embeds `str.strip`). -/
def trimWS (l : List Char) : List Char :=
  ((l.dropWhile Char.isWhitespace).reverse.dropWhile Char.isWhitespace).reverse

/-- Column-name normalisation of `preprocess.py`:
`re.sub(r"\s+", " ", c).strip().lower()`. -/
def normName (s : String) : String :=
  String.mk ((trimWS (collapseWSAux false s.toList)).map Char.toLower)

/-- Does `w` occur in `s` starting at the current position, followed by a
word boundary?  `w` is assumed to consist of word characters. -/
def wordHereAfter (w s : List Char) : Bool :=
  w.isPrefixOf s &&
    (match s.drop w.length with
     | [] => true
     | c :: _ => !(isWordChar c))

/-- Scan `s` for a whole-word occurrence of `w`; the flag records whether
the previous character was a word character (left `\b` boundary). -/
def hasWordAux (w : List Char) : Bool → List Char → Bool
  | _, [] => false
  | prev, c :: cs =>
    (!prev && wordHereAfter w (c :: cs)) || hasWordAux w (isWordChar c) cs

/-- Case-insensitive whole-word containment, the embedding of
`str.contains(r"\b<w>\b", case=False, na=False)`. -/
def hasWordCI (w : String) (s : String) : Bool :=
  hasWordAux (w.toList.map Char.toLower) false (s.toList.map Char.toLower)

/-- Substring search over character lists. -/
def containsSub (w : List Char) : List Char → Bool
  | [] => w.isEmpty
  | c :: cs => w.isPrefixOf (c :: cs) || containsSub w cs

/-- Case-insensitive substring containment, the embedding of
`str.contains("<w>", case=False, na=False)` for a pattern without regex
metacharacters. -/
def containsCI (w : String) (s : String) : Bool :=
  containsSub (w.toList.map Char.toLower) (s.toList.map Char.toLower)

/-- Numeric value of a digit list (most significant first). -/
def digitsVal (l : List Char) : ℕ :=
  l.foldl (fun a c => 10 * a + (c.toNat - 48)) 0

/-- Embedding of `pd.to_numeric(cell, errors="coerce")` on one cell: an
optionally signed decimal literal parses to its exact rational value, any
other text coerces to `none` (never an error). -/
def parseNum (s : String) : Option ℚ :=
  let t := trimWS s.toList
  let signed : Bool × List Char :=
    match t with
    | '-' :: r => (true, r)
    | '+' :: r => (false, r)
    | _ => (false, t)
  let intPart := signed.2.takeWhile Char.isDigit
  let rest := signed.2.dropWhile Char.isDigit
  if intPart.isEmpty then none
  else
    let mag : Option ℚ :=
      match rest with
      | [] => some (digitsVal intPart : ℚ)
      | '.' :: fr =>
        if !fr.isEmpty && fr.all Char.isDigit then
          some ((digitsVal intPart : ℚ) + (digitsVal fr : ℚ) / (10 : ℚ) ^ fr.length)
        else none
      | _ => none
    mag.map (fun m => if signed.1 then -m else m)

/-! ## Preprocess data model -/

/-- Supported calendar years, `YEARS = list(range(2001, 2025))`. -/
def YEARSN : List ℕ :=
  List.range' 2001 24

/-- The supported years as exact rationals (pandas year columns are
floats after `to_numeric`; integer years compare exactly). -/
def YEARSQ : List ℚ :=
  YEARSN.map (fun n => (n : ℚ))

/-- One raw CSV export after `pd.read_csv(..., skiprows=2, encoding=..)`:
the header row followed by the data rows, all cells as text. -/
structure RawTable where
  header : List String
  rows : List (List String)
deriving DecidableEq

/-- Error taxonomy of the pipeline, following the specification names:
`fileNotFound` for `FileNotFoundError`, `schemaMismatch` for a
`ValueError` about a missing or unrecognized column (the argument names
the expected column or pattern cited by the message), `noMatchingRows`
for the `ValueError` of an empty vehicles row selection, and `keyError`
for a raw pandas `KeyError` on a missing indexing column. -/
inductive LoadError where
  | fileNotFound (path : String)
  | schemaMismatch (expected : String)
  | noMatchingRows (filt : String)
  | keyError (col : String)
deriving DecidableEq

/-- A per-metric series as produced by a schema extractor: year keys with
nullable values (`vehicles` may record `none` for an unparsable cell). -/
abbrev MetricSeries : Type := List (ℚ × Option ℚ)

/-- First index of the column named `c` (pandas label lookup picks the
first matching column). -/
def colIdx? (hdr : List String) (c : String) : Option ℕ :=
  hdr.findIdx? (fun h => h = c)

/-- Cell of row `r` at column index `i`; a ragged short row reads as the
empty string (which parses to `none`, as a pandas `NaN` cell would). -/
def cell (r : List String) (i : ℕ) : String :=
  r.getD i ""

/-- Embedding of `df.groupby("year", as_index=False)[val].sum()` on
`(year, value)` records with nullable keys and values: rows with a `none`
key are dropped (`groupby` default `dropna=True`), keys are emitted in
ascending order (`sort=True`), and each group sums its non-null values
with `none` counting as `0` (`sum` skips `NaN`, an all-`NaN` group sums
to `0.0`). -/
def groupSumByYear (recs : List (Option ℚ × Option ℚ)) : List (ℚ × ℚ) :=
  let keys := (recs.filterMap Prod.fst).dedup
  (List.insertionSort (· ≤ ·) keys).map
    (fun k => (k, ((recs.filter (fun r => r.1 = some k)).map (fun r => r.2.getD 0)).sum))

/-- Restriction `out[out["year"].isin(YEARS)]`. -/
def restrictYears (l : List (ℚ × ℚ)) : List (ℚ × ℚ) :=
  l.filter (fun p => decide (p.1 ∈ YEARSQ))

/-- Emissions records after the road filter: the parsed `(year, value)`
pair of every row whose `emission category` cell contains the whole word
`road` case-insensitively. -/
def emissionsRecs (t : RawTable) (ci yi vi : ℕ) : List (Option ℚ × Option ℚ) :=
  (t.rows.filter (fun r => hasWordCI "road" (cell r ci))).map
    (fun r => (parseNum (cell r yi), parseNum (cell r vi)))

/-- Embedding of `preprocess.load_emissions`: checks the file, normalises
column names, requires `emission category`, filters rows to the whole
word `road`, coerces `year` (a missing `year` column is a raw
`KeyError`), requires a value column starting with `emission,`, then sums
by year and keeps supported years. -/
def load_emissions (file : Option RawTable) : Except LoadError MetricSeries :=
  match file with
  | none => .error (.fileNotFound "Greenhouse_gas_emissions.csv")
  | some t =>
    let hdr := t.header.map normName
    match colIdx? hdr "emission category" with
    | none => .error (.schemaMismatch "emission category")
    | some ci =>
      match colIdx? hdr "year" with
      | none => .error (.keyError "year")
      | some yi =>
        match hdr.findIdx? (fun c => "emission,".toList.isPrefixOf c.toList) with
        | none => .error (.schemaMismatch "emission,")
        | some vi =>
          .ok ((restrictYears (groupSumByYear (emissionsRecs t ci yi vi))).map
            (fun p => (p.1, some p.2)))

/-- Electricity rows after the optional `total` refinement: if any row's
sector cell contains the whole word `total` case-insensitively, keep only
those rows, otherwise keep all rows. -/
def electricityRows (t : RawTable) (si : ℕ) : List (List String) :=
  if t.rows.any (fun r => hasWordCI "total" (cell r si)) then
    t.rows.filter (fun r => hasWordCI "total" (cell r si))
  else t.rows

/-- Embedding of `preprocess.load_electricity`: checks the file,
normalises column names, requires `electricity consumption sector`,
refines to whole-word `total` rows when any exist, requires a column
containing `quantity`, coerces `year` and the quantity, then sums by year
and keeps supported years. -/
def load_electricity (file : Option RawTable) : Except LoadError MetricSeries :=
  match file with
  | none => .error (.fileNotFound "Electricity_consumption.csv")
  | some t =>
    let hdr := t.header.map normName
    match colIdx? hdr "electricity consumption sector" with
    | none => .error (.schemaMismatch "electricity consumption sector")
    | some si =>
      match hdr.findIdx? (fun c => containsSub "quantity".toList c.toList) with
      | none => .error (.schemaMismatch "quantity")
      | some qi =>
        match colIdx? hdr "year" with
        | none => .error (.keyError "year")
        | some yi =>
          .ok ((restrictYears (groupSumByYear
              ((electricityRows t si).map
                (fun r => (parseNum (cell r yi), parseNum (cell r qi)))))).map
            (fun p => (p.1, some p.2)))

/-- Row filter of the vehicles extractor: case-insensitive substring
match of `All automobiles` on the vehicle-class cell and of
`MAINLAND FINLAND` on the region cell. -/
def vehMatches (vci ri : ℕ) (r : List String) : Bool :=
  containsCI "All automobiles" (cell r vci) && containsCI "MAINLAND FINLAND" (cell r ri)

/-- Match a header against the pattern `^\s*(20\d{2})\s+Number\s*$`,
returning the four-digit year. -/
def yearColPattern (s : List Char) : Option ℕ :=
  match s.dropWhile Char.isWhitespace with
  | '2' :: '0' :: c1 :: c2 :: r =>
    if c1.isDigit && c2.isDigit &&
        (match r with
         | c :: _ => c.isWhitespace
         | [] => false) then
      let r2 := r.dropWhile Char.isWhitespace
      if r2.take 6 = "Number".toList && (r2.drop 6).all Char.isWhitespace then
        some (2000 + 10 * (c1.toNat - 48) + (c2.toNat - 48))
      else none
    else none
  | _ => none

/-- The `(column index, year)` pairs of the headers matching
`YYYY Number`, in file order (the insertion order of `year_map`). -/
def yearCols (hdr : List String) : List (ℕ × ℕ) :=
  hdr.enum.filterMap (fun p => (yearColPattern p.2.toList).map (fun yr => (p.1, yr)))

/-- Series rows of the vehicles extractor taken from the single selected
row `r0`: one `(year, value)` per `YYYY Number` column whose year is
supported, the value being `pd.to_numeric(pick[col]).iloc[0]`. -/
def vehSeriesRows (hdr : List String) (r0 : List String) : MetricSeries :=
  (yearCols hdr).filterMap
    (fun p => if p.2 ∈ YEARSN then some ((p.2 : ℚ), parseNum (cell r0 p.1)) else none)

/-- Embedding of `preprocess.load_vehicles`: checks the file, requires
the exact (un-normalised) columns `Vehicle class` and `Region`, selects
the matching rows (failing when none match), requires at least one
`YYYY Number` column, and reads each supported year's value from the
first selected row, sorted ascending by year.  When every matched
`YYYY Number` column falls outside the supported range the built row
list is empty, and `pd.DataFrame([]).sort_values("year")` raises a raw
`KeyError` on the missing `year` column — modelled by the `keyError`
branch. -/
def load_vehicles (file : Option RawTable) : Except LoadError MetricSeries :=
  match file with
  | none => .error (.fileNotFound "Reg_vehicles.csv")
  | some t =>
    match colIdx? t.header "Vehicle class", colIdx? t.header "Region" with
    | some vci, some ri =>
      match t.rows.filter (vehMatches vci ri) with
      | [] => .error (.noMatchingRows "All automobiles and MAINLAND FINLAND")
      | r0 :: _ =>
        if (yearCols t.header).isEmpty then .error (.schemaMismatch "YYYY Number")
        else if (vehSeriesRows t.header r0).isEmpty then .error (.keyError "year")
        else
          .ok (List.insertionSort (fun a b => a.1 ≤ b.1) (vehSeriesRows t.header r0))
    | _, _ => .error (.schemaMismatch "Vehicle class and Region")

/-! ## Merger -/

/-- One row of the merged table. -/
structure MRow where
  year : ℚ
  emissions : Option ℚ
  electricity : Option ℚ
  vehicles : Option ℚ
deriving DecidableEq

/-- Value of series `s` at year `y`: `none` when the year is absent or
its recorded value is null. -/
def lookupYear (y : ℚ) (s : MetricSeries) : Option ℚ :=
  match s.find? (fun p => p.1 = y) with
  | some p => p.2
  | none => none

/-- Embedding of the merge step of `preprocess.main` for unique-keyed
inputs: full outer join of the three series on year, restriction to
`2001 ≤ year ≤ 2024`, then an ascending sort by year.  The joined key set
is the union of the three key sets (first-occurrence order before the
sort), and each row reads its three metric values from the corresponding
series, `none` when absent. -/
def mergedTable (e el v : MetricSeries) : List MRow :=
  let keys := ((e.map Prod.fst) ++ (el.map Prod.fst) ++ (v.map Prod.fst)).dedup
  let keys := keys.filter (fun y => decide (2001 ≤ y) && decide (y ≤ 2024))
  (List.insertionSort (· ≤ ·) keys).map
    (fun y => ⟨y, lookupYear y e, lookupYear y el, lookupYear y v⟩)

/-! ## Derivation engine -/

/-- Mean of a rational sample (`Series.mean` over the non-null sample);
division by zero yields `0` for the empty sample, a case guarded away
wherever it matters. -/
def meanQ (l : List ℚ) : ℚ :=
  l.sum / l.length

/-- Population variance (`ddof = 0`): mean squared deviation with
divisor `n`. -/
def popVarQ (l : List ℚ) : ℚ :=
  ((l.map (fun x => (x - meanQ l) ^ 2)).sum) / l.length

/-- Mean of a real sample. -/
noncomputable def meanR (l : List ℝ) : ℝ :=
  l.sum / l.length

/-- Population variance of a real sample. -/
noncomputable def popVarR (l : List ℝ) : ℝ :=
  ((l.map (fun x => (x - meanR l) ^ 2)).sum) / l.length

/-- Embedding of `analysis.zscore`: `(s - s.mean()) / s.std(ddof=0)` with
mean and population standard deviation taken once over the column's
non-null sample.  An entry is `none` when the source entry is null or
when the population variance of the sample is not positive (a constant
column divides `0.0` by `0.0`, i.e. `NaN`). -/
noncomputable def zscore (s : List (Option ℚ)) : List (Option ℝ) :=
  let m := meanQ (validVals s)
  let v := popVarQ (validVals s)
  s.map
    (fun o =>
      match o with
      | none => none
      | some x => if 0 < v then some (((x : ℝ) - (m : ℝ)) / Real.sqrt (v : ℝ)) else none)

/-- Embedding of `analysis.yoy`, i.e. `Series.diff()`: the first entry is
null and entry `i` is `value[i] - value[i-1]` by row position, null when
either operand is null. -/
def yoy (s : List (Option ℚ)) : List (Option ℚ) :=
  match s with
  | [] => []
  | _ :: tail => none :: (tail.zip s).map (fun p => sub? p.1 p.2)

/-- Exact representation of a Pearson correlation: `num = n·Σxy − Σx·Σy`,
`vx = n·Σx² − (Σx)²`, `vy = n·Σy² − (Σy)²`; the correlation value is
`num / sqrt (vx · vy)`. -/
structure CorrOut where
  num : ℚ
  vx : ℚ
  vy : ℚ
deriving DecidableEq

/-- The real value of a represented correlation. -/
noncomputable def CorrOut.val (c : CorrOut) : ℝ :=
  (c.num : ℝ) / Real.sqrt ((c.vx : ℝ) * (c.vy : ℝ))

/-- Variance numerator `n·Σx² − (Σx)²` of a sample. -/
def varN (l : List ℚ) : ℚ :=
  (l.length : ℚ) * (l.map (fun x => x ^ 2)).sum - (l.sum) ^ 2

/-- Pearson correlation of a list of complete observation pairs: defined
exactly when both variance numerators are positive (a zero variance or
fewer than two pairs makes the float computation `NaN`). -/
def pearson? (ps : List (ℚ × ℚ)) : Option CorrOut :=
  let xs := ps.map Prod.fst
  let ys := ps.map Prod.snd
  if 0 < varN xs ∧ 0 < varN ys then
    some ⟨(ps.length : ℚ) * (ps.map (fun p => p.1 * p.2)).sum - xs.sum * ys.sum,
          varN xs, varN ys⟩
  else none

/-- Embedding of `Series.corr` (`min_periods=1`): Pearson correlation
over the pairwise-complete observations of two aligned columns. -/
def seriesCorr (x y : List (Option ℚ)) : Option CorrOut :=
  pearson? (validPairs x y)

/-- Trailing window of 5 entries of column `l` ending at row `i`
(meaningful for `4 ≤ i`). -/
def windowAt (l : List (Option ℚ)) (i : ℕ) : List (Option ℚ) :=
  (l.drop (i - 4)).take 5

/-- Embedding of one cell of
`df[x].rolling(5).corr(df[y])` (`min_periods` defaulting to the window
size `5`): null at the first four rows, and from the fifth row onward the
Pearson correlation of the trailing 5-row window, null as soon as any of
the 10 window entries is null (fewer than 5 valid observations in either
series fails `min_periods`) or a window variance vanishes. -/
def rollCorrAt (x y : List (Option ℚ)) (i : ℕ) : Option CorrOut :=
  if 4 ≤ i ∧ i < x.length ∧ i < y.length then
    match seqOpt (windowAt x i), seqOpt (windowAt y i) with
    | some xs, some ys => pearson? (xs.zip ys)
    | _, _ => none
  else none

/-- Shift a column forward by `k` rows within its own length
(`Series.shift(k)` for `k ≥ 0`): `k` nulls enter at the front, the last
`k` values fall off the end. -/
def shiftFwd (k : ℕ) (s : List (Option ℚ)) : List (Option ℚ) :=
  (List.replicate k none ++ s).take s.length

/-- The lags iterated by `lagged_corr`: `range(-max_lag, max_lag + 1)`
with `max_lag = 3`. -/
def lagRange : List ℤ :=
  [-3, -2, -1, 0, 1, 2, 3]

/-- Embedding of `analysis.lagged_corr` with `max_lag = 3`: for each lag
in `-3..3` in order, the correlation of `x.shift(-lag)` against `y` when
the lag is negative and of `x` against `y.shift(lag)` otherwise. -/
def lagged_corr (x y : List (Option ℚ)) : List (ℤ × Option CorrOut) :=
  lagRange.map
    (fun lag =>
      if lag < 0 then (lag, seriesCorr (shiftFwd (-lag).toNat x) y)
      else (lag, seriesCorr x (shiftFwd lag.toNat y)))

/-! ## Regression engine -/

/-- One row of the derived table, as consumed by the regression engine:
the three raw metric columns and their year-over-year deltas. -/
structure DRow where
  em : Option ℚ
  el : Option ℚ
  veh : Option ℚ
  dem : Option ℚ
  del : Option ℚ
  dveh : Option ℚ
deriving DecidableEq

/-- The derived table built from the three raw columns, with the delta
columns computed by `yoy`. -/
def derivedRows (em el veh : List (Option ℚ)) : List DRow :=
  (List.range em.length).map
    (fun i => ⟨at? em i, at? el i, at? veh i,
               at? (yoy em) i, at? (yoy el) i, at? (yoy veh) i⟩)

/-- A row is complete for a model when its response and every one of its
predictors are non-null. -/
def completeRow (y : DRow → Option ℚ) (xs : List (DRow → Option ℚ)) (r : DRow) : Bool :=
  (y r).isSome && xs.all (fun f => (f r).isSome)

/-- The retained rows of one model,
`df.dropna(subset=[y] + xcols)`. -/
def olsFrame (rows : List DRow) (y : DRow → Option ℚ) (xs : List (DRow → Option ℚ)) :
    List DRow :=
  rows.filter (completeRow y xs)

/-- Embedding of `analysis.fit_ols` up to the point where the data is
handed to `sm.OLS`: drop the rows with a null in the response or any
predictor of this model, fail with `InsufficientData` when none remain,
otherwise return the response values paired with the design rows, each
design row led by the intercept column of `sm.add_constant`. -/
def fit_ols (rows : List DRow) (y : DRow → Option ℚ) (xs : List (DRow → Option ℚ)) :
    Except String (List (ℚ × List ℚ)) :=
  let frame := olsFrame rows y xs
  if frame.isEmpty then .error "No rows available for OLS after dropping NA."
  else .ok (frame.map (fun r => ((y r).getD 0, 1 :: xs.map (fun f => (f r).getD 0))))

/-- The levels model: response `emissions_ktco2e`, predictors
`electricity_gwh` and `vehicles_first_reg`. -/
def fitLevels (rows : List DRow) : Except String (List (ℚ × List ℚ)) :=
  fit_ols rows DRow.em [DRow.el, DRow.veh]

/-- The deltas model: response `d_emissions`, predictors `d_electricity`
and `d_vehicles`. -/
def fitDeltas (rows : List DRow) : Except String (List (ℚ × List ℚ)) :=
  fit_ols rows DRow.dem [DRow.del, DRow.dveh]

/-! ## Helper lemmas -/

theorem get?_zip_of {α β : Type} {l1 : List α} {l2 : List β} {i : ℕ} {a : α} {b : β}
    (h1 : l1.get? i = some a) (h2 : l2.get? i = some b) :
    (l1.zip l2).get? i = some (a, b) := by
  induction l1 generalizing l2 i with
  | nil => simp at h1
  | cons x xs ih =>
    cases l2 with
    | nil => simp at h2
    | cons y ys =>
      cases i with
      | zero => simp_all
      | succ j => simpa using ih (by simpa using h1) (by simpa using h2)

theorem seqOpt_some_iff (l : List (Option ℚ)) :
    (∃ xs, seqOpt l = some xs) ↔ ∀ o ∈ l, o ≠ none := by
  induction l with
  | nil => simp [seqOpt]
  | cons o rest ih =>
    cases o with
    | none => simp [seqOpt]
    | some a =>
      rcases hrest : seqOpt rest with _ | l2
      · simp only [seqOpt, hrest]
        constructor
        · rintro ⟨xs, hxs⟩
          exact absurd hxs (by simp)
        · intro h
          obtain ⟨xs, hxs⟩ := ih.mpr (fun o ho => h o (List.mem_cons_of_mem _ ho))
          rw [hxs] at hrest
          cases hrest
      · simp only [seqOpt, hrest]
        constructor
        · intro _ o ho
          rcases List.mem_cons.mp ho with h | h
          · simp [h]
          · exact ih.mp ⟨l2, hrest⟩ o h
        · intro _
          exact ⟨a :: l2, rfl⟩

theorem seqOpt_eq_validVals (l : List (Option ℚ)) (h : ∀ o ∈ l, o ≠ none) :
    seqOpt l = some (validVals l) := by
  induction l with
  | nil => simp [seqOpt, validVals]
  | cons o rest ih =>
    cases o with
    | none => exact absurd rfl (h none (by simp))
    | some a =>
      have h2 := ih (fun o ho => h o (List.mem_cons_of_mem _ ho))
      simp [seqOpt, h2, validVals]

theorem seqOpt_length {l : List (Option ℚ)} {xs : List ℚ} (h : seqOpt l = some xs) :
    xs.length = l.length := by
  induction l generalizing xs with
  | nil =>
    simp only [seqOpt, Option.some.injEq] at h
    simp [← h]
  | cons o rest ih =>
    cases o with
    | none => simp [seqOpt] at h
    | some a =>
      simp only [seqOpt] at h
      rcases hrest : seqOpt rest with _ | l2 <;> rw [hrest] at h
      · exact absurd h (by simp)
      · simp only [Option.some.injEq] at h
        subst h
        simp [ih hrest]

/-! ## Claim theorems -/

/-- Claim C5: the year-over-year delta column has the same length as its
source, its first entry is null, and at every later position `i` where
both `value[i]` and `value[i-1]` are non-null the delta equals
`value[i] - value[i-1]`, by row position. -/
theorem C5_yoy_delta (s : List (Option ℚ)) :
    (yoy s).length = s.length ∧
    (s ≠ [] → (yoy s).get? 0 = some none) ∧
    (∀ i a b, 1 ≤ i → s.get? i = some (some a) → s.get? (i - 1) = some (some b) →
      (yoy s).get? i = some (some (a - b))) := by
  refine ⟨?_, ?_, ?_⟩
  · cases s with
    | nil => simp [yoy]
    | cons h t =>
      simp only [yoy, List.length_cons, List.length_map, List.length_zip]
      omega
  · intro hne
    cases s with
    | nil => exact absurd rfl hne
    | cons h t => simp [yoy]
  · intro i a b hi hia hib
    cases s with
    | nil => simp at hia
    | cons h t =>
      obtain ⟨j, rfl⟩ : ∃ j, i = j + 1 := ⟨i - 1, by omega⟩
      have hta : t.get? j = some (some a) := by simpa using hia
      have hsb : (h :: t).get? j = some (some b) := by simpa using hib
      have hz : ((t.zip (h :: t))).get? j = some (some a, some b) := get?_zip_of hta hsb
      have hz2 : (t.zip (h :: t))[j]? = some (some a, some b) := by simpa using hz
      simp [yoy, List.getElem?_map, hz2, sub?]

/-- Claim C5 witness: a concrete column evaluated through the theorem. -/
theorem C5_yoy_delta_witness :
    (yoy [some 5, some 7, none, some 4]).get? 0 = some none ∧
    (yoy [some 5, some 7, none, some 4]).get? 1 = some (some 2) := by
  have h := C5_yoy_delta [some 5, some 7, none, some 4]
  refine ⟨h.2.1 (by decide), ?_⟩
  have := h.2.2 1 7 5 (by norm_num) (by decide) (by decide)
  rw [this]
  norm_num

theorem pearson?_isSome (ps : List (ℚ × ℚ)) :
    (pearson? ps).isSome = true ↔
      (0 < varN (ps.map Prod.fst) ∧ 0 < varN (ps.map Prod.snd)) := by
  by_cases h : 0 < varN (ps.map Prod.fst) ∧ 0 < varN (ps.map Prod.snd) <;>
    simp [pearson?, h]

/-- Claim C2 counterexample: at row 5 of a pair of columns whose trailing
5-row window holds 4 valid pairs (at least 2), the rolling correlation is
still null, because `rolling(5)` demands 5 valid observations
(`min_periods` defaults to the window size). -/
theorem C2_counterexample :
    2 ≤ (validPairs (windowAt [some 0, some 1, some 2, some 3, some 4] 4)
          (windowAt [none, some 1, some 2, some 4, some 3] 4)).length ∧
    rollCorrAt [some 0, some 1, some 2, some 3, some 4]
      [none, some 1, some 2, some 4, some 3] 4 = none := by
  exact ⟨by decide, by decide⟩

/-- Claim C2 (amended): the rolling correlation is null at the first
4 rows; from the 5th row onward it is non-null exactly when every entry
of the trailing 5-row window of both series is non-null and both windows
have positive variance numerator — any null in the window forces null,
regardless of how many valid pairs remain. -/
theorem C2_roll_corr_defined (x y : List (Option ℚ)) (i : ℕ)
    (hlen : x.length = y.length) (hi : i < x.length) :
    (i < 4 → rollCorrAt x y i = none) ∧
    (4 ≤ i → ((rollCorrAt x y i).isSome = true ↔
      ((∀ o ∈ windowAt x i, o ≠ none) ∧ (∀ o ∈ windowAt y i, o ≠ none) ∧
       0 < varN (validVals (windowAt x i)) ∧ 0 < varN (validVals (windowAt y i))))) := by
  constructor
  · intro h4
    rw [rollCorrAt, if_neg]
    rintro ⟨h, -⟩
    omega
  · intro h4
    rw [rollCorrAt, if_pos ⟨h4, hi, hlen ▸ hi⟩]
    rcases hwx : seqOpt (windowAt x i) with _ | xs
    · have hnx : ¬ ∀ o ∈ windowAt x i, o ≠ none := by
        intro hall
        obtain ⟨xs, hxs⟩ := (seqOpt_some_iff _).mpr hall
        rw [hxs] at hwx
        cases hwx
      simp [hnx]
    · rcases hwy : seqOpt (windowAt y i) with _ | ys
      · have hny : ¬ ∀ o ∈ windowAt y i, o ≠ none := by
          intro hall
          obtain ⟨ys, hys⟩ := (seqOpt_some_iff _).mpr hall
          rw [hys] at hwy
          cases hwy
        simp [hny]
      · have hax : ∀ o ∈ windowAt x i, o ≠ none := by
          rw [← seqOpt_some_iff]
          exact ⟨xs, hwx⟩
        have hay : ∀ o ∈ windowAt y i, o ≠ none := by
          rw [← seqOpt_some_iff]
          exact ⟨ys, hwy⟩
        have hvx : validVals (windowAt x i) = xs := by
          have := seqOpt_eq_validVals _ hax
          rw [this] at hwx
          exact (Option.some.injEq _ _ ▸ hwx)
        have hvy : validVals (windowAt y i) = ys := by
          have := seqOpt_eq_validVals _ hay
          rw [this] at hwy
          exact (Option.some.injEq _ _ ▸ hwy)
        have hlx : xs.length = ys.length := by
          rw [seqOpt_length hwx, seqOpt_length hwy]
          simp [windowAt, hlen]
        have hfst : (xs.zip ys).map Prod.fst = xs :=
          List.map_fst_zip _ _ (le_of_eq hlx)
        have hsnd : (xs.zip ys).map Prod.snd = ys :=
          List.map_snd_zip _ _ (le_of_eq hlx.symm)
        rw [pearson?_isSome, hfst, hsnd, hvx, hvy]
        exact ⟨fun hv => ⟨hax, hay, hv⟩, fun hv => hv.2.2⟩

/-- Claim C2 witness: concrete columns evaluated through the theorem. -/
theorem C2_roll_corr_defined_witness :
    rollCorrAt [some 1, some 2, some 3, some 4, some 5]
      [some 1, some 2, some 3, some 5, some 4] 2 = none ∧
    (rollCorrAt [some 1, some 2, some 3, some 4, some 5]
      [some 1, some 2, some 3, some 5, some 4] 4).isSome = true := by
  have h := C2_roll_corr_defined [some 1, some 2, some 3, some 4, some 5]
    [some 1, some 2, some 3, some 5, some 4] 2 (by decide) (by decide)
  have h4 := C2_roll_corr_defined [some 1, some 2, some 3, some 4, some 5]
    [some 1, some 2, some 3, some 5, some 4] 4 (by decide) (by decide)
  refine ⟨h.1 (by norm_num), (h4.2 (by norm_num)).mpr ⟨by decide, by decide, ?_, ?_⟩⟩
  · show 0 < varN (validVals (windowAt [some 1, some 2, some 3, some 4, some 5] 4))
    have : validVals (windowAt [some 1, some 2, some 3, some 4, some 5] 4) =
        [1, 2, 3, 4, 5] := by decide
    rw [this, varN]
    norm_num
  · show 0 < varN (validVals (windowAt [some 1, some 2, some 3, some 5, some 4] 4))
    have : validVals (windowAt [some 1, some 2, some 3, some 5, some 4] 4) =
        [1, 2, 3, 5, 4] := by decide
    rw [this, varN]
    norm_num

theorem sorted_lt_of_le_nodup {l : List ℚ} (hs : l.Sorted (· ≤ ·)) (hn : l.Nodup) :
    l.Sorted (· < ·) :=
  (hs.and hn).imp (fun h => lt_of_le_of_ne h.1 h.2)

/-- Claim C1 counterexample: with three empty source series the merged
table is empty, so year 2001 of YearRange has no row — refuting "exactly
one row for every year of YearRange regardless of which subset of years
each source covers". -/
theorem C1_counterexample :
    (2001 : ℚ) ∈ YEARSQ ∧ mergedTable [] [] [] = [] := by
  constructor
  · decide
  · rfl

/-- Claim C1 (amended): the merged table contains exactly one row for
every year that is in range (`2001 ≤ y ≤ 2024`) and covered by at least
one source series, with rows strictly ascending by year (no duplicates,
and no row for a year covered by no source); each row reads every metric
from its series, null when that series does not cover the year. -/
theorem C1_merged_table (e el v : MetricSeries)
    (he : (e.map Prod.fst).Nodup) (hel : (el.map Prod.fst).Nodup)
    (hv : (v.map Prod.fst).Nodup) :
    ((mergedTable e el v).map MRow.year).Sorted (· < ·) ∧
    (∀ y : ℚ, y ∈ (mergedTable e el v).map MRow.year ↔
      ((2001 ≤ y ∧ y ≤ 2024) ∧
       (y ∈ e.map Prod.fst ∨ y ∈ el.map Prod.fst ∨ y ∈ v.map Prod.fst))) ∧
    (∀ r ∈ mergedTable e el v,
      r.emissions = lookupYear r.year e ∧ r.electricity = lookupYear r.year el ∧
      r.vehicles = lookupYear r.year v) := by
  set keys0 := ((e.map Prod.fst) ++ (el.map Prod.fst) ++ (v.map Prod.fst)).dedup with hk0
  set keysF := keys0.filter (fun y => decide (2001 ≤ y) && decide (y ≤ 2024)) with hkF
  set sk := List.insertionSort (· ≤ ·) keysF with hsk
  have hm : mergedTable e el v =
      sk.map (fun y => ⟨y, lookupYear y e, lookupYear y el, lookupYear y v⟩) := rfl
  have hyears : (mergedTable e el v).map MRow.year = sk := by
    rw [hm, List.map_map]
    exact List.map_id sk
  have hperm : List.Perm sk keysF := List.perm_insertionSort _ _
  have hnodup : sk.Nodup :=
    hperm.symm.nodup (List.Nodup.filter _ (List.nodup_dedup _))
  refine ⟨?_, ?_, ?_⟩
  · rw [hyears]
    exact sorted_lt_of_le_nodup (List.sorted_insertionSort _ _) hnodup
  · intro y
    rw [hyears]
    rw [hperm.mem_iff, hkF, List.mem_filter, hk0, List.mem_dedup]
    simp only [List.mem_append, Bool.and_eq_true, decide_eq_true_eq]
    tauto
  · intro r hr
    rw [hm] at hr
    obtain ⟨y, _, rfl⟩ := List.mem_map.mp hr
    exact ⟨rfl, rfl, rfl⟩

/-- Claim C1 witness: concrete series evaluated through the theorem — a
partially covered in-range year appears, an out-of-range year does not. -/
theorem C1_merged_table_witness :
    ((mergedTable [((2001 : ℚ), some 1), (2030, some 9)] [((2002 : ℚ), none)] []).map
      MRow.year).Sorted (· < ·) ∧
    (2002 : ℚ) ∈ (mergedTable [((2001 : ℚ), some 1), (2030, some 9)]
      [((2002 : ℚ), none)] []).map MRow.year ∧
    (2030 : ℚ) ∉ (mergedTable [((2001 : ℚ), some 1), (2030, some 9)]
      [((2002 : ℚ), none)] []).map MRow.year := by
  have h := C1_merged_table [((2001 : ℚ), some 1), (2030, some 9)] [((2002 : ℚ), none)] []
    (by decide) (by decide) (by decide)
  refine ⟨h.1, ?_, ?_⟩
  · exact (h.2.1 2002).mpr ⟨⟨by norm_num, by norm_num⟩, Or.inr (Or.inl (by decide))⟩
  · intro hmem
    have h30 := ((h.2.1 2030).mp hmem).1.2
    norm_num at h30

theorem validPairs_replicate_append (k : ℕ) (a y : List (Option ℚ)) :
    validPairs (List.replicate k none ++ a) y = validPairs a (y.drop k) := by
  induction k generalizing y with
  | zero => simp
  | succ n ih =>
    cases y with
    | nil => simp [validPairs]
    | cons b ys =>
      rw [List.replicate_succ]
      show validPairs (none :: (List.replicate n none ++ a)) (b :: ys) = _
      simp only [validPairs, List.zip_cons_cons, List.filterMap_cons]
      exact ih ys

theorem zip_take_of_le {α β : Type} (a : List α) (w : List β) (m : ℕ)
    (h : w.length ≤ m) : (a.take m).zip w = a.zip w := by
  induction a generalizing m w with
  | nil => simp
  | cons c cs ih =>
    cases m with
    | zero =>
      cases w with
      | nil => simp
      | cons d ds => simp at h
    | succ n =>
      cases w with
      | nil => simp
      | cons d ds =>
        simp only [List.take_succ_cons, List.zip_cons_cons]
        rw [ih ds n (by simpa using h)]

theorem validPairs_shiftFwd_left (k : ℕ) (x y : List (Option ℚ))
    (hlen : x.length = y.length) :
    validPairs (shiftFwd k x) y = validPairs x (y.drop k) := by
  by_cases hk : k ≤ x.length
  · have hdecomp : shiftFwd k x = List.replicate k none ++ x.take (x.length - k) := by
      rw [shiftFwd]
      have : x.length = (List.replicate k (none : Option ℚ)).length + (x.length - k) := by
        simp; omega
      rw [this, List.take_append]
      simp
    rw [hdecomp, validPairs_replicate_append]
    unfold validPairs
    rw [zip_take_of_le]
    simp
    omega
  · have hdecomp : shiftFwd k x = List.replicate x.length (none : Option ℚ) := by
      rw [shiftFwd, List.take_append_of_le_length (by simp; omega), List.take_replicate]
      congr 1
      omega
    rw [hdecomp]
    have hl : validPairs (List.replicate x.length (none : Option ℚ)) y = [] := by
      rw [validPairs, List.filterMap_eq_nil]
      intro p hp
      have := List.mem_zip hp
      have hfst : p.1 = none := List.eq_of_mem_replicate this.1
      rcases p with ⟨p1, p2⟩
      simp only at hfst
      subst hfst
      rfl
    have hr : y.drop k = [] := by
      apply List.drop_eq_nil_of_le
      omega
    rw [hl, hr]
    simp [validPairs]

theorem validPairs_swap (x y : List (Option ℚ)) :
    validPairs x y = (validPairs y x).map (fun p => (p.2, p.1)) := by
  unfold validPairs
  rw [← List.zip_swap y x, List.filterMap_map, List.map_filterMap]
  apply List.filterMap_congr
  rintro ⟨a, b⟩ -
  cases a <;> cases b <;> rfl

theorem validPairs_shiftFwd_right (k : ℕ) (x y : List (Option ℚ))
    (hlen : x.length = y.length) :
    validPairs x (shiftFwd k y) = validPairs (x.drop k) y := by
  rw [validPairs_swap x (shiftFwd k y),
    validPairs_shiftFwd_left k y x hlen.symm,
    validPairs_swap y (x.drop k), List.map_map]
  have hid : ((fun p : ℚ × ℚ => (p.2, p.1)) ∘ fun p : ℚ × ℚ => (p.2, p.1)) = id := by
    funext p
    rfl
  rw [hid, List.map_id]

theorem validPairs_self (x : List (Option ℚ)) :
    validPairs x x = (validVals x).map (fun a => (a, a)) := by
  induction x with
  | nil => rfl
  | cons o t ih =>
    cases o with
    | none =>
      show validPairs (none :: t) (none :: t) = _
      simp only [validPairs, List.zip_cons_cons, List.filterMap_cons] at ih ⊢
      simpa [validVals] using ih
    | some a =>
      show validPairs (some a :: t) (some a :: t) = _
      simp only [validPairs, List.zip_cons_cons, List.filterMap_cons] at ih ⊢
      simpa [validVals] using ih

theorem pearson?_self_val {l : List ℚ} {c : CorrOut}
    (h : pearson? (l.map (fun a => (a, a))) = some c) : c.val = 1 := by
  have hfst : (Prod.fst ∘ fun a : ℚ => (a, a)) = id := by
    funext a
    rfl
  have hsnd : (Prod.snd ∘ fun a : ℚ => (a, a)) = id := by
    funext a
    rfl
  have h1 : ((l.map fun a => ((a : ℚ), a)).map Prod.fst) = l := by
    rw [List.map_map, hfst, List.map_id]
  have h2 : ((l.map fun a => ((a : ℚ), a)).map Prod.snd) = l := by
    rw [List.map_map, hsnd, List.map_id]
  have h3 : ((l.map fun a => ((a : ℚ), a)).map fun p => p.1 * p.2) =
      l.map (fun a => a * a) := by
    rw [List.map_map]
    rfl
  simp only [pearson?, h1, h2, h3, List.length_map] at h
  by_cases hv : 0 < varN l ∧ 0 < varN l
  · rw [if_pos hv, Option.some.injEq] at h
    have hnum : (l.length : ℚ) * (l.map fun a => a * a).sum - l.sum * l.sum = varN l := by
      rw [varN]
      have : (l.map fun a => a * a) = l.map fun a => a ^ 2 := by
        apply List.map_congr_left
        intro a _
        ring
      rw [this]
      ring
    rw [hnum] at h
    subst h
    rw [CorrOut.val]
    simp only
    have hge : (0 : ℝ) ≤ (varN l : ℚ) := by
      exact_mod_cast le_of_lt hv.1
    rw [Real.sqrt_mul_self hge]
    apply div_self
    exact_mod_cast hv.1.ne'
  · rw [if_neg hv] at h
    cases h

/-- Claim C3: the lag-correlation table is exactly 7 entries for lags
-3..3 ascending; at negative lag `-k` the correlation pairs `x[i]` with
`y[i+k]` (X advanced relative to Y), at non-negative lag `k` it pairs
`x[i+k]` with `y[i]` (Y shifted forward), always over pairwise-complete
rows only; and at lag 0 of a series against itself the correlation, when
defined, equals 1. -/
theorem C3_lagged_corr (x y : List (Option ℚ)) (hlen : x.length = y.length) :
    ((lagged_corr x y).map Prod.fst = [-3, -2, -1, 0, 1, 2, 3]) ∧
    (∀ k : ℕ, k ≤ 3 →
      ((lagged_corr x y).get? (3 - k) =
        some (-(k : ℤ), pearson? (validPairs x (y.drop k))) ∧
       (lagged_corr x y).get? (3 + k) =
        some ((k : ℤ), pearson? (validPairs (x.drop k) y)))) ∧
    (∀ c : CorrOut, (lagged_corr x x).get? 3 = some ((0 : ℤ), some c) → c.val = 1) := by
  have h0y : shiftFwd 0 y = y := by simp [shiftFwd]
  refine ⟨rfl, ?_, ?_⟩
  · intro k hk
    interval_cases k
    · refine ⟨?_, ?_⟩
      · show (lagged_corr x y).get? 3 = _
        have h : (lagged_corr x y).get? 3 = some (0, seriesCorr x (shiftFwd 0 y)) := rfl
        rw [h, h0y, seriesCorr]
        simp
      · show (lagged_corr x y).get? 3 = _
        have h : (lagged_corr x y).get? 3 = some (0, seriesCorr x (shiftFwd 0 y)) := rfl
        rw [h, h0y, seriesCorr]
        have hx0 : x.drop 0 = x := List.drop_zero x
        rw [hx0]
        simp
    · refine ⟨?_, ?_⟩
      · show (lagged_corr x y).get? 2 = _
        have h : (lagged_corr x y).get? 2 =
            some (-1, seriesCorr (shiftFwd 1 x) y) := rfl
        rw [h, seriesCorr, validPairs_shiftFwd_left 1 x y hlen]
        norm_num
      · show (lagged_corr x y).get? 4 = _
        have h : (lagged_corr x y).get? 4 =
            some (1, seriesCorr x (shiftFwd 1 y)) := rfl
        rw [h, seriesCorr, validPairs_shiftFwd_right 1 x y hlen]
        norm_num
    · refine ⟨?_, ?_⟩
      · show (lagged_corr x y).get? 1 = _
        have h : (lagged_corr x y).get? 1 =
            some (-2, seriesCorr (shiftFwd 2 x) y) := rfl
        rw [h, seriesCorr, validPairs_shiftFwd_left 2 x y hlen]
        norm_num
      · show (lagged_corr x y).get? 5 = _
        have h : (lagged_corr x y).get? 5 =
            some (2, seriesCorr x (shiftFwd 2 y)) := rfl
        rw [h, seriesCorr, validPairs_shiftFwd_right 2 x y hlen]
        norm_num
    · refine ⟨?_, ?_⟩
      · show (lagged_corr x y).get? 0 = _
        have h : (lagged_corr x y).get? 0 =
            some (-3, seriesCorr (shiftFwd 3 x) y) := rfl
        rw [h, seriesCorr, validPairs_shiftFwd_left 3 x y hlen]
        norm_num
      · show (lagged_corr x y).get? 6 = _
        have h : (lagged_corr x y).get? 6 =
            some (3, seriesCorr x (shiftFwd 3 y)) := rfl
        rw [h, seriesCorr, validPairs_shiftFwd_right 3 x y hlen]
        norm_num
  · intro c hc
    have h : (lagged_corr x x).get? 3 = some (0, seriesCorr x (shiftFwd 0 x)) := rfl
    have h0x : shiftFwd 0 x = x := by simp [shiftFwd]
    rw [h, h0x] at hc
    simp only [Option.some.injEq, Prod.mk.injEq] at hc
    have hsc : seriesCorr x x = some c := hc.2
    rw [seriesCorr, validPairs_self] at hsc
    exact pearson?_self_val hsc

/-- Claim C3 witness: a concrete series correlated against itself through
the theorem — the 7 ascending lags and the unit correlation at lag 0. -/
theorem C3_lagged_corr_witness :
    ((lagged_corr [some 1, some 2, some 3] [some 1, some 2, some 3]).map Prod.fst =
      [-3, -2, -1, 0, 1, 2, 3]) ∧
    (∃ c : CorrOut,
      (lagged_corr [some 1, some 2, some 3] [some 1, some 2, some 3]).get? 3 =
        some ((0 : ℤ), some c) ∧ c.val = 1) := by
  have h := C3_lagged_corr [some 1, some 2, some 3] [some 1, some 2, some 3] rfl
  have h0 := (h.2.1 0 (by norm_num)).1
  have hv : pearson? (validPairs [some 1, some 2, some 3]
      (List.drop 0 [some 1, some 2, some 3])) = some ⟨6, 6, 6⟩ := by
    have hvp : validPairs [some 1, some 2, some 3]
        (List.drop 0 [some 1, some 2, some 3]) = [(1, 1), (2, 2), (3, 3)] := by decide
    rw [hvp]
    norm_num [pearson?, varN]
  rw [hv] at h0
  have hget : (lagged_corr [some 1, some 2, some 3] [some 1, some 2, some 3]).get? 3 =
      some ((0 : ℤ), some ⟨6, 6, 6⟩) := by simpa using h0
  exact ⟨h.1, ⟨⟨6, 6, 6⟩, hget, h.2.2 _ hget⟩⟩

theorem sum_map_sub_r {α : Type} (l : List α) (f g : α → ℝ) :
    (l.map (fun a => f a - g a)).sum = (l.map f).sum - (l.map g).sum := by
  induction l with
  | nil => simp
  | cons a t ih =>
    simp only [List.map_cons, List.sum_cons, ih]
    ring

theorem sum_map_constR {α : Type} (l : List α) (c : ℝ) :
    (l.map (fun _ => c)).sum = (l.length : ℝ) * c := by
  induction l with
  | nil => simp
  | cons a t ih =>
    simp only [List.map_cons, List.sum_cons, ih, List.length_cons]
    push_cast
    ring

theorem sum_cast_rat (l : List ℚ) :
    ((l.sum : ℚ) : ℝ) = (l.map (fun q : ℚ => (q : ℝ))).sum := by
  induction l with
  | nil => simp
  | cons a t ih =>
    rw [List.sum_cons, Rat.cast_add, ih, List.map_cons, List.sum_cons]

theorem sum_of_all_eq {l : List ℚ} {c : ℚ} (h : ∀ x ∈ l, x = c) :
    l.sum = (l.length : ℚ) * c := by
  induction l with
  | nil => simp
  | cons a t ih =>
    have ha : a = c := h a (by simp)
    have ht : ∀ x ∈ t, x = c := fun x hx => h x (List.mem_cons_of_mem _ hx)
    simp only [List.sum_cons, ha, ih ht, List.length_cons]
    push_cast
    ring

theorem popVarQ_const {l : List ℚ} {c : ℚ} (h : ∀ x ∈ l, x = c) : popVarQ l = 0 := by
  rw [popVarQ]
  have hz : ((l.map (fun x => (x - meanQ l) ^ 2)).sum) = 0 := by
    rcases eq_or_ne l [] with rfl | hne
    · simp
    · have hnn : (l.length : ℚ) ≠ 0 :=
        Nat.cast_ne_zero.mpr (fun h0 => hne (List.length_eq_zero.mp h0))
      have hm : meanQ l = c := by
        rw [meanQ, sum_of_all_eq h]
        field_simp
      apply List.sum_eq_zero
      intro q hq
      obtain ⟨x, hx, rfl⟩ := List.mem_map.mp hq
      rw [h x hx, hm]
      ring
  rw [hz]
  simp

theorem filterMap_id_map_option (f : ℚ → ℝ) (s : List (Option ℚ)) :
    ((s.map (fun o => Option.map f o)).filterMap id) = (s.filterMap id).map f := by
  induction s with
  | nil => rfl
  | cons o t ih =>
    cases o <;> simp [List.filterMap_cons, ih]

/-- Claim C4: each z-scored entry is `(x - mean) / population_stddev`
over the column's non-null sample with divisor `n` (ddof 0); for a column
of positive population variance the z-scored sample has mean 0 and
population variance 1 (hence population standard deviation 1), nulls are
preserved in place, and for a constant column every entry is undefined. -/
theorem C4_zscore (s : List (Option ℚ)) :
    (0 < popVarQ (validVals s) →
      ((∀ i x, s.get? i = some (some x) →
          (zscore s).get? i = some (some (((x : ℝ) - (meanQ (validVals s) : ℝ)) /
            Real.sqrt ((popVarQ (validVals s) : ℚ) : ℝ)))) ∧
       (∀ i, s.get? i = some none → (zscore s).get? i = some none) ∧
       meanR ((zscore s).filterMap id) = 0 ∧
       popVarR ((zscore s).filterMap id) = 1)) ∧
    ((∀ a ∈ validVals s, ∀ b ∈ validVals s, a = b) →
      zscore s = s.map (fun _ => none)) := by
  constructor
  · intro hv
    set l := validVals s with hldef
    set m := meanQ l with hmdef
    set v := popVarQ l with hvdef
    set sd := Real.sqrt ((v : ℚ) : ℝ) with hsddef
    have hvR : (0 : ℝ) < ((v : ℚ) : ℝ) := by exact_mod_cast hv
    have hsd : 0 < sd := Real.sqrt_pos.mpr hvR
    have hsd2 : sd ^ 2 = ((v : ℚ) : ℝ) := Real.sq_sqrt (le_of_lt hvR)
    have hl : l ≠ [] := by
      intro h0
      rw [hvdef, h0] at hv
      norm_num [popVarQ, meanQ] at hv
    have hnn : l.length ≠ 0 := fun h0 => hl (List.length_eq_zero.mp h0)
    have hnQ : ((l.length : ℚ)) ≠ 0 := Nat.cast_ne_zero.mpr hnn
    have hnR : ((l.length : ℝ)) ≠ 0 := Nat.cast_ne_zero.mpr hnn
    have hzmap : zscore s = s.map (fun o =>
        Option.map (fun x : ℚ => ((x : ℝ) - ((m : ℚ) : ℝ)) / sd) o) := by
      rw [zscore]
      apply List.map_congr_left
      intro o _
      cases o with
      | none => rfl
      | some x =>
        simp only [Option.map_some']
        rw [if_pos]
        exact hv
    have hzvals : (zscore s).filterMap id =
        l.map (fun x : ℚ => ((x : ℝ) - ((m : ℚ) : ℝ)) / sd) := by
      rw [hzmap, filterMap_id_map_option]
      rfl
    have hsum : l.sum = (l.length : ℚ) * m := by
      rw [hmdef, meanQ]
      field_simp
    have hsub : (l.map (fun x : ℚ => ((x : ℝ) - ((m : ℚ) : ℝ)))).sum = 0 := by
      rw [sum_map_sub_r l (fun x : ℚ => ((x : ℚ) : ℝ)) (fun _ => ((m : ℚ) : ℝ)),
        sum_map_constR, ← sum_cast_rat, hsum]
      push_cast
      ring
    have hzsum : ((zscore s).filterMap id).sum = 0 := by
      rw [hzvals]
      have : l.map (fun x : ℚ => ((x : ℝ) - ((m : ℚ) : ℝ)) / sd) =
          l.map (fun x : ℚ => ((x : ℝ) - ((m : ℚ) : ℝ)) * sd⁻¹) := by
        apply List.map_congr_left
        intro a _
        rw [div_eq_mul_inv]
      rw [this, List.sum_map_mul_right, hsub, zero_mul]
    have hzlen : ((zscore s).filterMap id).length = l.length := by
      rw [hzvals, List.length_map]
    have hmean0 : meanR ((zscore s).filterMap id) = 0 := by
      rw [meanR, hzsum, zero_div]
    refine ⟨?_, ?_, hmean0, ?_⟩
    · intro i x hi
      rw [hzmap, List.get?_map, hi]
      rfl
    · intro i hi
      rw [hzmap, List.get?_map, hi]
      rfl
    · have hS : (l.map (fun x => (x - m) ^ 2)).sum = (l.length : ℚ) * v := by
        rw [hvdef, popVarQ, ← hmdef]
        field_simp
      have hsq : ((zscore s).filterMap id).map (fun z => (z - meanR ((zscore s).filterMap id)) ^ 2) =
          l.map (fun x : ℚ => (((x : ℝ) - ((m : ℚ) : ℝ)) ^ 2) * (((v : ℚ) : ℝ))⁻¹) := by
        rw [hmean0, hzvals, List.map_map]
        apply List.map_congr_left
        intro a _
        simp only [Function.comp_apply, sub_zero]
        rw [div_pow, hsd2, div_eq_mul_inv]
      have hcastS : (l.map (fun x : ℚ => (((x : ℝ) - ((m : ℚ) : ℝ)) ^ 2))).sum =
          (((l.length : ℚ) * v : ℚ) : ℝ) := by
        rw [← hS, sum_cast_rat]
        congr 1
        rw [List.map_map]
        apply List.map_congr_left
        intro a _
        simp only [Function.comp_apply]
        push_cast
        ring
      rw [popVarR, hsq]
      have : (l.map (fun x : ℚ => (((x : ℝ) - ((m : ℚ) : ℝ)) ^ 2) * (((v : ℚ) : ℝ))⁻¹)).sum =
          (l.map (fun x : ℚ => (((x : ℝ) - ((m : ℚ) : ℝ)) ^ 2))).sum * (((v : ℚ) : ℝ))⁻¹ :=
        List.sum_map_mul_right _ _ _
      rw [this, hcastS, hzlen]
      push_cast
      field_simp
  · intro hconst
    rcases eq_or_ne (validVals s) [] with hemp | hne
    · have hv0 : popVarQ (validVals s) = 0 := by
        rw [hemp]
        norm_num [popVarQ, meanQ]
      rw [zscore]
      apply List.map_congr_left
      intro o _
      cases o with
      | none => rfl
      | some x => simp [hv0]
    · obtain ⟨c, hc⟩ := List.exists_mem_of_ne_nil _ hne
      have hall : ∀ x ∈ validVals s, x = c := fun x hx => hconst x hx c hc
      have hv0 : popVarQ (validVals s) = 0 := popVarQ_const hall
      rw [zscore]
      apply List.map_congr_left
      intro o _
      cases o with
      | none => rfl
      | some x => simp [hv0]

/-- Claim C4 witness: a non-constant column (variance 2/3) normalises to
mean 0 and population variance 1; a constant column z-scores to all
nulls. -/
theorem C4_zscore_witness :
    meanR ((zscore [some 1, some 2, some 3, none]).filterMap id) = 0 ∧
    popVarR ((zscore [some 1, some 2, some 3, none]).filterMap id) = 1 ∧
    zscore [some 5, some 5] = [none, none] := by
  have hv : (0 : ℚ) < popVarQ (validVals [some 1, some 2, some 3, none]) := by
    have hvv : validVals [some 1, some 2, some 3, none] = [1, 2, 3] := by decide
    rw [hvv, popVarQ, meanQ]
    norm_num
  have h := C4_zscore [some 1, some 2, some 3, none]
  have h2 := C4_zscore [some 5, some 5]
  refine ⟨(h.1 hv).2.2.1, (h.1 hv).2.2.2, ?_⟩
  have hc := h2.2 (by decide)
  rw [hc]
  rfl

/-- Claim C7: for each model independently, the regression engine keeps
exactly the rows whose response and predictors are all non-null, fails
with InsufficientData exactly when no row survives (before any fit), and
otherwise passes the responses with intercept-led design rows to the
fitter; on a fully populated two-row derived table the levels model keeps
both rows while the deltas model drops the first (null first delta), so a
row dropped by one model is still used by the other. -/
theorem C7_fit_ols :
    (∀ (rows : List DRow) (y : DRow → Option ℚ) (xs : List (DRow → Option ℚ)),
      ((∃ e, fit_ols rows y xs = .error e) ↔
        ∀ r ∈ rows, completeRow y xs r = false) ∧
      (∀ d, fit_ols rows y xs = .ok d →
        d.length = rows.countP (completeRow y xs) ∧
        (∀ p ∈ d, p.2.length = xs.length + 1 ∧ p.2.get? 0 = some 1 ∧
          ∃ r ∈ rows, completeRow y xs r = true ∧
            p = ((y r).getD 0, 1 :: xs.map (fun f => (f r).getD 0))))) ∧
    ((olsFrame (derivedRows [some 1, some 2] [some 1, some 2] [some 1, some 2])
        DRow.em [DRow.el, DRow.veh]).length = 2 ∧
     (olsFrame (derivedRows [some 1, some 2] [some 1, some 2] [some 1, some 2])
        DRow.dem [DRow.del, DRow.dveh]).length = 1) := by
  refine ⟨?_, by decide, by decide⟩
  intro rows y xs
  constructor
  · by_cases hemp : (olsFrame rows y xs).isEmpty = true
    · constructor
      · intro _ r hr
        have hfr : olsFrame rows y xs = [] := List.isEmpty_iff.mp hemp
        rw [olsFrame] at hfr
        have := List.filter_eq_nil.mp hfr r hr
        simpa using this
      · intro _
        exact ⟨"No rows available for OLS after dropping NA.", by simp [fit_ols, hemp]⟩
    · constructor
      · rintro ⟨e, he⟩
        simp [fit_ols, hemp] at he
      · intro hall
        exfalso
        apply hemp
        rw [List.isEmpty_iff, olsFrame, List.filter_eq_nil]
        intro r hr
        simp [hall r hr]
  · intro d hd
    by_cases hemp : (olsFrame rows y xs).isEmpty = true
    · simp [fit_ols, hemp] at hd
    · simp only [fit_ols, hemp, Bool.false_eq_true, if_false, Except.ok.injEq] at hd
      subst hd
      constructor
      · rw [List.length_map, olsFrame, ← List.countP_eq_length_filter]
      · intro p hp
        obtain ⟨r, hrf, rfl⟩ := List.mem_map.mp hp
        have hrr := List.mem_filter.mp hrf
        exact ⟨by simp, rfl, ⟨r, hrr.1, hrr.2, rfl⟩⟩

/-- Claim C7 witness: a table whose electricity column is null makes the
levels model fail with InsufficientData, while a fully populated two-row
table fits the levels model on both rows. -/
theorem C7_fit_ols_witness :
    (∃ e, fit_ols (derivedRows [some 1] [none] [some 2])
      DRow.em [DRow.el, DRow.veh] = .error e) ∧
    [((1 : ℚ), [(1 : ℚ), 1, 1]), (2, [1, 2, 2])].length =
      (derivedRows [some 1, some 2] [some 1, some 2] [some 1, some 2]).countP
        (completeRow DRow.em [DRow.el, DRow.veh]) := by
  constructor
  · exact ((C7_fit_ols.1 (derivedRows [some 1] [none] [some 2])
      DRow.em [DRow.el, DRow.veh]).1).mpr (by decide)
  · exact ((C7_fit_ols.1 (derivedRows [some 1, some 2] [some 1, some 2] [some 1, some 2])
      DRow.em [DRow.el, DRow.veh]).2 _ rfl).1

theorem groupSumByYear_mem (recs : List (Option ℚ × Option ℚ)) (y q : ℚ) :
    (y, q) ∈ groupSumByYear recs ↔
      ((∃ r ∈ recs, r.1 = some y) ∧
       q = ((recs.filter (fun r => r.1 = some y)).map (fun r => r.2.getD 0)).sum) := by
  rw [groupSumByYear]
  constructor
  · intro hmem
    obtain ⟨k, hk, hkey⟩ := List.mem_map.mp hmem
    obtain ⟨hky, hqv⟩ := Prod.mk.injEq _ _ _ _ ▸ hkey
    subst hky
    refine ⟨?_, hqv.symm⟩
    have hk2 : k ∈ (recs.filterMap Prod.fst).dedup :=
      (List.perm_insertionSort _ _).mem_iff.mp hk
    rw [List.mem_dedup, List.mem_filterMap] at hk2
    exact hk2
  · rintro ⟨hex, hq⟩
    apply List.mem_map.mpr
    refine ⟨y, ?_, by rw [← hq]⟩
    apply (List.perm_insertionSort _ _).mem_iff.mpr
    rw [List.mem_dedup, List.mem_filterMap]
    exact hex

theorem seriesOut_mem (recs : List (Option ℚ × Option ℚ)) (y q : ℚ) :
    (y, some q) ∈ (restrictYears (groupSumByYear recs)).map (fun p => (p.1, some p.2)) ↔
      (y ∈ YEARSQ ∧ (∃ r ∈ recs, r.1 = some y) ∧
       q = ((recs.filter (fun r => r.1 = some y)).map (fun r => r.2.getD 0)).sum) := by
  constructor
  · intro h
    obtain ⟨p, hp, hpe⟩ := List.mem_map.mp h
    obtain ⟨h1, h2⟩ := Prod.mk.injEq _ _ _ _ ▸ hpe
    have hpy : p = (y, q) := by
      rcases p with ⟨a, b⟩
      simp only at h1 h2
      have hb : b = q := Option.some.inj h2
      simp [h1, hb]
    subst hpy
    rw [restrictYears, List.mem_filter] at hp
    obtain ⟨hpg, hyr⟩ := hp
    have hg := (groupSumByYear_mem recs y q).mp hpg
    exact ⟨by simpa using hyr, hg.1, hg.2⟩
  · rintro ⟨hyr, hex, hq⟩
    apply List.mem_map.mpr
    refine ⟨(y, q), ?_, rfl⟩
    rw [restrictYears, List.mem_filter]
    exact ⟨(groupSumByYear_mem recs y q).mpr ⟨hex, hq⟩, by simpa using hyr⟩

/-- Claim C6: whenever the electricity schema is recognised the extractor
succeeds: if some row's sector matches the whole word `total`
case-insensitively only those rows are aggregated, and when no row
matches all rows are kept; either way the output sums the quantity column
grouped by (supported) year — a series, not a failure.  The whole-word
case-insensitive matcher is exercised on concrete sectors. -/
theorem C6_electricity_total (t : RawTable) (si qi yi : ℕ)
    (hsi : colIdx? (t.header.map normName) "electricity consumption sector" = some si)
    (hqi : (t.header.map normName).findIdx?
      (fun c => containsSub "quantity".toList c.toList) = some qi)
    (hyi : colIdx? (t.header.map normName) "year" = some yi) :
    (∃ out, load_electricity (some t) = .ok out ∧
      ∀ y q : ℚ, (y, some q) ∈ out ↔
        (y ∈ YEARSQ ∧
         (∃ r ∈ electricityRows t si, parseNum (cell r yi) = some y) ∧
         q = (((electricityRows t si).filter
                (fun r => parseNum (cell r yi) = some y)).map
              (fun r => (parseNum (cell r qi)).getD 0)).sum)) ∧
    ((t.rows.any (fun r => hasWordCI "total" (cell r si))) = false →
      electricityRows t si = t.rows) ∧
    ((t.rows.any (fun r => hasWordCI "total" (cell r si))) = true →
      electricityRows t si = t.rows.filter (fun r => hasWordCI "total" (cell r si))) ∧
    hasWordCI "total" "TOTAL electricity" = true ∧
    hasWordCI "total" "subtotal" = false := by
  refine ⟨?_, ?_, ?_, by decide, by decide⟩
  · refine ⟨(restrictYears (groupSumByYear ((electricityRows t si).map
        (fun r => (parseNum (cell r yi), parseNum (cell r qi)))))).map
        (fun p => (p.1, some p.2)), ?_, ?_⟩
    · simp only [load_electricity, hsi, hqi, hyi]
    intro y q
    rw [seriesOut_mem]
    have hexiff : (∃ rec ∈ (electricityRows t si).map
        (fun r => (parseNum (cell r yi), parseNum (cell r qi))), rec.1 = some y) ↔
        (∃ r ∈ electricityRows t si, parseNum (cell r yi) = some y) := by
      constructor
      · rintro ⟨rec, hrec, h1⟩
        obtain ⟨r, hr, rfl⟩ := List.mem_map.mp hrec
        exact ⟨r, hr, h1⟩
      · rintro ⟨r, hr, h1⟩
        exact ⟨_, List.mem_map_of_mem _ hr, h1⟩
    have hfil : (((electricityRows t si).map
          (fun r => (parseNum (cell r yi), parseNum (cell r qi)))).filter
            (fun rec => rec.1 = some y)).map (fun rec => rec.2.getD 0) =
        (((electricityRows t si).filter
            (fun r => parseNum (cell r yi) = some y)).map
          (fun r => (parseNum (cell r qi)).getD 0)) := by
      rw [List.filter_map, List.map_map]
      rfl
    rw [hexiff, hfil]
  · intro hno
    rw [electricityRows, if_neg (by simp [hno])]
  · intro hyes
    rw [electricityRows, if_pos hyes]

/-- Claim C6 witness: a concrete electricity table with no `total` sector
falls back to summing all rows per year, producing the value 15 for 2001
from rows 10 and 5; out-of-range 1999 rows are dropped. -/
theorem C6_electricity_total_witness :
    ∃ out, load_electricity (some ⟨["Year", "Electricity consumption sector", "Quantity GWh"],
        [["2001", "Industry", "10"], ["2001", "Housing", "5"], ["1999", "Industry", "7"]]⟩) =
      .ok out ∧ ((2001 : ℚ), some 15) ∈ out := by
  have h := C6_electricity_total ⟨["Year", "Electricity consumption sector", "Quantity GWh"],
    [["2001", "Industry", "10"], ["2001", "Housing", "5"], ["1999", "Industry", "7"]]⟩
    1 2 0 (by decide) (by decide) (by decide)
  obtain ⟨⟨out, hout, hiff⟩, hfb, -, -, -⟩ := h
  refine ⟨out, hout, (hiff 2001 15).mpr ⟨by decide, ?_, ?_⟩⟩
  · refine ⟨["2001", "Industry", "10"], ?_, by decide⟩
    rw [hfb (by decide)]
    decide
  · rw [hfb (by decide)]
    have hlist : (([["2001", "Industry", "10"], ["2001", "Housing", "5"],
        ["1999", "Industry", "7"]].filter
          (fun r => parseNum (cell r 0) = some 2001)).map
        (fun r => (parseNum (cell r 2)).getD 0)) = [10, 5] := by decide
    rw [hlist]
    norm_num

theorem colIdx?_eq_none_iff (hdr : List String) (c : String) :
    colIdx? hdr c = none ↔ c ∉ hdr := by
  rw [colIdx?, List.findIdx?_eq_none_iff]
  constructor
  · intro h hc
    have := h c hc
    simp at this
  · intro h x hx
    by_cases hxc : x = c
    · subst hxc
      exact absurd hx h
    · simp [hxc]

theorem mem_of_colIdx?_eq_some {hdr : List String} {c : String} {i : ℕ}
    (h : colIdx? hdr c = some i) : c ∈ hdr := by
  by_contra hc
  rw [(colIdx?_eq_none_iff hdr c).mpr hc] at h
  cases h

/-- Claim C8: a missing input file gives FileNotFound; a missing
structural column (`emission category`, `electricity consumption
sector`, `Vehicle class`/`Region`) and a missing numeric value column
(`emission,` prefix, `quantity` substring, `YYYY Number` pattern) give
SchemaMismatch naming the expected column; an empty vehicles row
selection gives NoMatchingRows; and whenever the schema is recognised
(for vehicles: some matched `YYYY Number` column lies in the supported
range) the extractor succeeds for arbitrary cell contents — a
non-numeric cell is coerced to null, never an error.  A vehicles table
whose matched year columns all fall outside the range crashes with the
raw `KeyError` on `year` instead of succeeding. -/
theorem C8_extractor_errors :
    (load_emissions none = .error (.fileNotFound "Greenhouse_gas_emissions.csv") ∧
     load_electricity none = .error (.fileNotFound "Electricity_consumption.csv") ∧
     load_vehicles none = .error (.fileNotFound "Reg_vehicles.csv")) ∧
    (∀ t : RawTable, colIdx? (t.header.map normName) "emission category" = none →
      load_emissions (some t) = .error (.schemaMismatch "emission category")) ∧
    (∀ (t : RawTable) (ci yi : ℕ),
      colIdx? (t.header.map normName) "emission category" = some ci →
      colIdx? (t.header.map normName) "year" = some yi →
      (t.header.map normName).findIdx? (fun c => "emission,".toList.isPrefixOf c.toList) = none →
      load_emissions (some t) = .error (.schemaMismatch "emission,")) ∧
    (∀ t : RawTable,
      colIdx? (t.header.map normName) "electricity consumption sector" = none →
      load_electricity (some t) = .error (.schemaMismatch "electricity consumption sector")) ∧
    (∀ (t : RawTable) (si : ℕ),
      colIdx? (t.header.map normName) "electricity consumption sector" = some si →
      (t.header.map normName).findIdx?
        (fun c => containsSub "quantity".toList c.toList) = none →
      load_electricity (some t) = .error (.schemaMismatch "quantity")) ∧
    (∀ t : RawTable, "Vehicle class" ∉ t.header ∨ "Region" ∉ t.header →
      load_vehicles (some t) = .error (.schemaMismatch "Vehicle class and Region")) ∧
    (∀ (t : RawTable) (vci ri : ℕ), colIdx? t.header "Vehicle class" = some vci →
      colIdx? t.header "Region" = some ri →
      t.rows.filter (vehMatches vci ri) = [] →
      load_vehicles (some t) =
        .error (.noMatchingRows "All automobiles and MAINLAND FINLAND")) ∧
    (∀ (t : RawTable) (vci ri : ℕ) (r0 : List String) (rest : List (List String)),
      colIdx? t.header "Vehicle class" = some vci →
      colIdx? t.header "Region" = some ri →
      t.rows.filter (vehMatches vci ri) = r0 :: rest →
      yearCols t.header = [] →
      load_vehicles (some t) = .error (.schemaMismatch "YYYY Number")) ∧
    (∀ (t : RawTable) (ci yi vi : ℕ),
      colIdx? (t.header.map normName) "emission category" = some ci →
      colIdx? (t.header.map normName) "year" = some yi →
      (t.header.map normName).findIdx? (fun c => "emission,".toList.isPrefixOf c.toList) = some vi →
      ∃ out, load_emissions (some t) = .ok out) ∧
    (∀ (t : RawTable) (si qi yi : ℕ),
      colIdx? (t.header.map normName) "electricity consumption sector" = some si →
      (t.header.map normName).findIdx?
        (fun c => containsSub "quantity".toList c.toList) = some qi →
      colIdx? (t.header.map normName) "year" = some yi →
      ∃ out, load_electricity (some t) = .ok out) ∧
    (∀ (t : RawTable) (vci ri : ℕ) (r0 : List String) (rest : List (List String)),
      colIdx? t.header "Vehicle class" = some vci →
      colIdx? t.header "Region" = some ri →
      t.rows.filter (vehMatches vci ri) = r0 :: rest →
      vehSeriesRows t.header r0 ≠ [] →
      ∃ out, load_vehicles (some t) = .ok out) ∧
    (∀ (t : RawTable) (vci ri : ℕ) (r0 : List String) (rest : List (List String)),
      colIdx? t.header "Vehicle class" = some vci →
      colIdx? t.header "Region" = some ri →
      t.rows.filter (vehMatches vci ri) = r0 :: rest →
      yearCols t.header ≠ [] →
      vehSeriesRows t.header r0 = [] →
      load_vehicles (some t) = .error (.keyError "year")) := by
  refine ⟨⟨rfl, rfl, rfl⟩, ?_, ?_, ?_, ?_, ?_, ?_, ?_, ?_, ?_, ?_, ?_⟩
  · intro t h
    simp only [load_emissions, h]
  · intro t ci yi hci hyi hvi
    simp only [load_emissions, hci, hyi, hvi]
  · intro t h
    simp only [load_electricity, h]
  · intro t si hsi hqi
    simp only [load_electricity, hsi, hqi]
  · intro t hmiss
    rcases hvc : colIdx? t.header "Vehicle class" with _ | vci
    · simp only [load_vehicles, hvc]
    · rcases hri : colIdx? t.header "Region" with _ | ri
      · simp only [load_vehicles, hvc, hri]
      · exfalso
        rcases hmiss with h | h
        · exact h (mem_of_colIdx?_eq_some hvc)
        · exact h (mem_of_colIdx?_eq_some hri)
  · intro t vci ri hvc hri hfil
    simp only [load_vehicles, hvc, hri, hfil]
  · intro t vci ri r0 rest hvc hri hfil hyc
    simp only [load_vehicles, hvc, hri, hfil, hyc, List.isEmpty_nil, if_true]
  · intro t ci yi vi hci hyi hvi
    simp only [load_emissions, hci, hyi, hvi]
    exact ⟨_, rfl⟩
  · intro t si qi yi hsi hqi hyi
    simp only [load_electricity, hsi, hqi, hyi]
    exact ⟨_, rfl⟩
  · intro t vci ri r0 rest hvc hri hfil hv
    have hyc : yearCols t.header ≠ [] := by
      intro h0
      apply hv
      rw [vehSeriesRows, h0]
      rfl
    simp only [load_vehicles, hvc, hri, hfil]
    rw [if_neg (by simpa [List.isEmpty_iff] using hyc),
      if_neg (by simpa [List.isEmpty_iff] using hv)]
    exact ⟨_, rfl⟩
  · intro t vci ri r0 rest hvc hri hfil hyc hser
    simp only [load_vehicles, hvc, hri, hfil]
    rw [if_neg (by simpa [List.isEmpty_iff] using hyc),
      if_pos (List.isEmpty_iff.mpr hser)]

/-- Claim C8 witness: concrete tables exercised through the theorem — a
header without the emissions category column fails with SchemaMismatch, a
vehicles table without the target row fails with NoMatchingRows, a
recognised emissions schema succeeds even with a non-numeric value cell,
a vehicles schema with an in-range year column succeeds, and one whose
only year column is `2025 Number` crashes with the raw `KeyError`. -/
theorem C8_extractor_errors_witness :
    load_emissions (some ⟨["Yr"], [["2001"]]⟩) =
      .error (.schemaMismatch "emission category") ∧
    load_vehicles (some ⟨["Vehicle class", "Region", "2001 Number"],
      [["Lorry", "Lapland", "3"]]⟩) =
      .error (.noMatchingRows "All automobiles and MAINLAND FINLAND") ∧
    (∃ out, load_emissions (some ⟨["Year", "Emission category",
      "Emission, thousand tonnes"], [["2001", "Road transport", "junk"]]⟩) = .ok out) ∧
    (∃ out, load_vehicles (some ⟨["Vehicle class", "Region", "2001 Number"],
      [["All automobiles", "MAINLAND FINLAND", "junk"]]⟩) = .ok out) ∧
    load_vehicles (some ⟨["Vehicle class", "Region", "2025 Number"],
      [["All automobiles", "MAINLAND FINLAND", "9"]]⟩) = .error (.keyError "year") := by
  refine ⟨?_, ?_, ?_, ?_, ?_⟩
  · exact C8_extractor_errors.2.1 _ (by decide)
  · exact C8_extractor_errors.2.2.2.2.2.2.1 _ 0 1 (by decide) (by decide) (by decide)
  · exact C8_extractor_errors.2.2.2.2.2.2.2.2.1 _ 1 0 2 (by decide) (by decide) (by decide)
  · exact C8_extractor_errors.2.2.2.2.2.2.2.2.2.2.1 _ 0 1
      ["All automobiles", "MAINLAND FINLAND", "junk"] [] (by decide) (by decide)
      (by decide) (by decide)
  · exact C8_extractor_errors.2.2.2.2.2.2.2.2.2.2.2 _ 0 1
      ["All automobiles", "MAINLAND FINLAND", "9"] [] (by decide) (by decide)
      (by decide) (by decide) (by decide)

/-- Claim C9: when the vehicles row filter matches several rows, the
output is read from the first matching row only — two tables with the
same header and the same first matching row load identically no matter
what the later matching rows contain, and, when the first row yields a
non-empty series (some matched year column is in range), the output is
exactly the series built from that first row. -/
theorem C9_vehicles_first_row (t1 t2 : RawTable) (vci ri : ℕ)
    (hh : t1.header = t2.header)
    (hvc : colIdx? t1.header "Vehicle class" = some vci)
    (hri : colIdx? t1.header "Region" = some ri)
    (hne : t1.rows.filter (vehMatches vci ri) ≠ [])
    (hfst : (t1.rows.filter (vehMatches vci ri)).head? =
            (t2.rows.filter (vehMatches vci ri)).head?) :
    load_vehicles (some t1) = load_vehicles (some t2) ∧
    (∀ (r0 : List String) (rest : List (List String)),
      t1.rows.filter (vehMatches vci ri) = r0 :: rest →
      vehSeriesRows t1.header r0 ≠ [] →
      load_vehicles (some t1) =
        .ok (List.insertionSort (fun a b => a.1 ≤ b.1) (vehSeriesRows t1.header r0))) := by
  obtain ⟨r0, rest1, hfil1⟩ := List.exists_cons_of_ne_nil hne
  have hfst2 : (t2.rows.filter (vehMatches vci ri)).head? = some r0 := by
    rw [← hfst, hfil1]
    rfl
  have hne2 : t2.rows.filter (vehMatches vci ri) ≠ [] := by
    intro h0
    rw [h0] at hfst2
    cases hfst2
  obtain ⟨r0b, rest2, hfil2⟩ := List.exists_cons_of_ne_nil hne2
  have hr0b : r0b = r0 := by
    rw [hfil2] at hfst2
    exact Option.some.inj hfst2
  rw [hr0b] at hfil2
  have hvc2 : colIdx? t2.header "Vehicle class" = some vci := hh ▸ hvc
  have hri2 : colIdx? t2.header "Region" = some ri := hh ▸ hri
  constructor
  · simp only [load_vehicles, hvc, hri, hvc2, hri2, hfil1, hfil2, ← hh]
  · intro r0c restc hfilc hv
    have hr0c : r0c = r0 := by
      rw [hfilc] at hfil1
      exact ((List.cons.injEq _ _ _ _ ▸ hfil1).1 : r0c = r0)
    subst hr0c
    have hyc : yearCols t1.header ≠ [] := by
      intro h0
      apply hv
      rw [vehSeriesRows, h0]
      rfl
    simp only [load_vehicles, hvc, hri, hfilc]
    rw [if_neg (by simpa [List.isEmpty_iff] using hyc),
      if_neg (by simpa [List.isEmpty_iff] using hv)]

/-- Claim C9 witness: two concrete vehicle tables matching two rows each,
identical except for the second matching row, load to the same series,
namely the one read off the first matching row. -/
theorem C9_vehicles_first_row_witness :
    load_vehicles (some ⟨["Vehicle class", "Region", "2001 Number"],
      [["All automobiles", "MAINLAND FINLAND", "7"],
       ["xAll automobilesx", "mainland finland y", "999"]]⟩) =
    load_vehicles (some ⟨["Vehicle class", "Region", "2001 Number"],
      [["All automobiles", "MAINLAND FINLAND", "7"],
       ["xAll automobilesx", "mainland finland y", "123"]]⟩) ∧
    load_vehicles (some ⟨["Vehicle class", "Region", "2001 Number"],
      [["All automobiles", "MAINLAND FINLAND", "7"],
       ["xAll automobilesx", "mainland finland y", "999"]]⟩) =
      .ok [((2001 : ℚ), some 7)] := by
  have h := C9_vehicles_first_row
    ⟨["Vehicle class", "Region", "2001 Number"],
      [["All automobiles", "MAINLAND FINLAND", "7"],
       ["xAll automobilesx", "mainland finland y", "999"]]⟩
    ⟨["Vehicle class", "Region", "2001 Number"],
      [["All automobiles", "MAINLAND FINLAND", "7"],
       ["xAll automobilesx", "mainland finland y", "123"]]⟩
    0 1 rfl (by decide) (by decide) (by decide) (by decide)
  refine ⟨h.1, ?_⟩
  rw [h.2 ["All automobiles", "MAINLAND FINLAND", "7"]
    [["xAll automobilesx", "mainland finland y", "999"]] (by decide) (by decide)]
  have : List.insertionSort (fun a b => a.1 ≤ b.1)
      (vehSeriesRows ["Vehicle class", "Region", "2001 Number"]
        ["All automobiles", "MAINLAND FINLAND", "7"]) = [((2001 : ℚ), some 7)] := by
    decide
  rw [this]

theorem groupSumByYear_filter_isSome (recs : List (Option ℚ × Option ℚ)) :
    groupSumByYear recs = groupSumByYear (recs.filter (fun r => r.1.isSome)) := by
  have hkeys : recs.filterMap Prod.fst =
      (recs.filter (fun r => r.1.isSome)).filterMap Prod.fst := by
    induction recs with
    | nil => rfl
    | cons r t ih =>
      rcases r with ⟨o, v⟩
      cases o with
      | none => simpa [List.filterMap_cons, List.filter_cons] using ih
      | some a => simpa [List.filterMap_cons, List.filter_cons] using ih
  have hgrp : ∀ k : ℚ, recs.filter (fun r => r.1 = some k) =
      (recs.filter (fun r => r.1.isSome)).filter (fun r => r.1 = some k) := by
    intro k
    rw [List.filter_filter]
    apply List.filter_congr
    intro r _
    rcases r with ⟨o, v⟩
    cases o <;> simp
  rw [groupSumByYear, groupSumByYear, ← hkeys]
  apply List.map_congr_left
  intro k _
  rw [hgrp k]

theorem groupSumByYear_cons_none (v : Option ℚ) (recs : List (Option ℚ × Option ℚ)) :
    groupSumByYear ((none, v) :: recs) = groupSumByYear recs := by
  rw [groupSumByYear_filter_isSome ((none, v) :: recs), List.filter_cons,
    groupSumByYear_filter_isSome recs]
  simp

/-- Claim C10: a record whose year does not parse is dropped by the
group-by-year aggregation — aggregating is the same as first removing all
null-keyed records, every output year is backed by a record with that
parsed year, and prepending a row with an unparsable year cell to the
emissions or electricity input leaves the extractor output unchanged
(the row is silently excluded rather than erred on or counted). -/
theorem C10_unparsable_year_dropped (recs : List (Option ℚ × Option ℚ)) :
    (groupSumByYear recs = groupSumByYear (recs.filter (fun r => r.1.isSome))) ∧
    (∀ y q : ℚ, (y, q) ∈ groupSumByYear recs → ∃ r ∈ recs, r.1 = some y) ∧
    (∀ (t : RawTable) (ci yi vi : ℕ) (row : List String),
      colIdx? (t.header.map normName) "emission category" = some ci →
      colIdx? (t.header.map normName) "year" = some yi →
      (t.header.map normName).findIdx?
        (fun c => "emission,".toList.isPrefixOf c.toList) = some vi →
      parseNum (cell row yi) = none →
      load_emissions (some ⟨t.header, row :: t.rows⟩) = load_emissions (some t)) ∧
    (∀ (t : RawTable) (si qi yi : ℕ) (row : List String),
      colIdx? (t.header.map normName) "electricity consumption sector" = some si →
      (t.header.map normName).findIdx?
        (fun c => containsSub "quantity".toList c.toList) = some qi →
      colIdx? (t.header.map normName) "year" = some yi →
      parseNum (cell row yi) = none →
      hasWordCI "total" (cell row si) = false →
      load_electricity (some ⟨t.header, row :: t.rows⟩) = load_electricity (some t)) := by
  refine ⟨groupSumByYear_filter_isSome recs, ?_, ?_, ?_⟩
  · intro y q hmem
    exact ((groupSumByYear_mem recs y q).mp hmem).1
  · intro t ci yi vi row hci hyi hvi hrow
    simp only [load_emissions, hci, hyi, hvi]
    have hrecs : emissionsRecs ⟨t.header, row :: t.rows⟩ ci yi vi =
        (parseNum (cell row yi), parseNum (cell row vi)) :: emissionsRecs t ci yi vi ∨
        emissionsRecs ⟨t.header, row :: t.rows⟩ ci yi vi = emissionsRecs t ci yi vi := by
      rw [emissionsRecs, emissionsRecs]
      cases hm : hasWordCI "road" (cell row ci) with
      | false =>
        right
        simp [List.filter_cons, hm]
      | true =>
        left
        simp [List.filter_cons, hm]
    rcases hrecs with h | h
    · rw [h, hrow, groupSumByYear_cons_none]
    · rw [h]
  · intro t si qi yi row hsi hqi hyi hrow hnot
    simp only [load_electricity, hsi, hqi, hyi]
    have hrows : electricityRows ⟨t.header, row :: t.rows⟩ si = row :: electricityRows t si ∨
        electricityRows ⟨t.header, row :: t.rows⟩ si = electricityRows t si := by
      rw [electricityRows, electricityRows]
      show (if (row :: t.rows).any (fun r => hasWordCI "total" (cell r si)) then _ else _) = _ ∨
        (if (row :: t.rows).any (fun r => hasWordCI "total" (cell r si)) then _ else _) = _
      rw [List.any_cons, hnot, Bool.false_or]
      by_cases hany : t.rows.any (fun r => hasWordCI "total" (cell r si)) = true
      · right
        rw [if_pos hany, if_pos hany, List.filter_cons]
        simp [hnot]
      · rw [Bool.not_eq_true] at hany
        left
        rw [hany]
        simp
    rcases hrows with h | h
    · rw [h, List.map_cons, hrow, groupSumByYear_cons_none]
    · rw [h]

/-- Claim C10 witness: prepending a row with year cell `oops` to a
concrete emissions table leaves the extractor output unchanged. -/
theorem C10_unparsable_year_dropped_witness :
    load_emissions (some ⟨["Year", "Emission category", "Emission, x"],
      [["oops", "road", "99"], ["2001", "road", "3"]]⟩) =
    load_emissions (some ⟨["Year", "Emission category", "Emission, x"],
      [["2001", "road", "3"]]⟩) := by
  exact (C10_unparsable_year_dropped []).2.2.1
    ⟨["Year", "Emission category", "Emission, x"], [["2001", "road", "3"]]⟩
    1 0 2 ["oops", "road", "99"] (by decide) (by decide) (by decide) (by decide)

end MEE
